import Mathlib

/-!
Shallow embedding of `src/is.cpp` from the icd repository.

A C string (`const char*`) is modelled as a `List Char` of the characters
before the terminating NUL; a well-formed C string contains no NUL
character.  Dereferencing the pointer at the end of the list yields the
NUL terminator, which `cstrHead` makes explicit, and the scan over the
candidate set stops at a NUL exactly as `while (*x)` does.
-/

/-- The NUL character that terminates every C string. -/
def nulChar : Char := '\x00'

/-- Dereference a C-string pointer: the head character, or the NUL
terminator when the remaining list is empty. -/
def cstrHead : List Char → Char
  | [] => nulChar
  | c :: _ => c

/-- The space-skipping loop `while (*s == ' ') ++s;` shared by all four
single-string classifiers in `is.cpp`. -/
def skipSpaces (s : List Char) : List Char :=
  s.dropWhile (fun c => c == ' ')

/-- The candidate-set loop of `icd9IsASingle`:
`while (*x) { if (*s == *x) return true; ++x; } return false;`
where `sc` is the dereferenced string character `*s`.  The loop guard
`*x` stops the scan at a NUL in `x`. -/
def icd9IsAScan (sc : Char) : List Char → Bool
  | [] => false
  | c :: xs => if c = nulChar then false
               else if sc = c then true
               else icd9IsAScan sc xs

/-- `bool icd9IsASingle(const char* s, const char* x)` from `is.cpp`:
skip leading spaces of `s`, then scan `x` for a character equal to the
first remaining character of `s`. -/
def icd9IsASingle (s x : List Char) : Bool :=
  icd9IsAScan (cstrHead (skipSpaces s)) x

/-- `bool icd9IsASingleV(const char* s)` from `is.cpp`:
skip leading spaces, then `return *s == 'V' || *s == 'v';`. -/
def icd9IsASingleV (s : List Char) : Bool :=
  let c := cstrHead (skipSpaces s)
  c == 'V' || c == 'v'

/-- `bool icd9IsASingleE(const char* s)` from `is.cpp`:
skip leading spaces, then `return *s == 'E' || *s == 'e';`. -/
def icd9IsASingleE (s : List Char) : Bool :=
  let c := cstrHead (skipSpaces s)
  c == 'E' || c == 'e'

/-- `bool icd9IsASingleVE(const char* s)` from `is.cpp`:
skip leading spaces, then `return *s == 'V' || *s == 'E' || *s == 'v' || *s == 'e';`. -/
def icd9IsASingleVE (s : List Char) : Bool :=
  let c := cstrHead (skipSpaces s)
  c == 'V' || c == 'E' || c == 'v' || c == 'e'

/-- `std::vector<bool> icd9IsA(const std::vector<std::string>& sv, const char* x, bool invert)`
from `is.cpp`: `out[i] = invert != icd9IsASingle(sv[i].c_str(), x)` for each
index, which is element-wise map over the input vector. -/
def icd9IsA (sv : List (List Char)) (x : List Char) (invert : Bool) : List Bool :=
  sv.map (fun s => invert != icd9IsASingle s x)

/-! ## Helper lemmas about the candidate-set scan -/

/-- When the candidate set contains no NUL (as any well-formed C string),
the scan is exactly a membership test by equality. -/
theorem icd9IsAScan_eq_any (sc : Char) (x : List Char) (hx : nulChar ∉ x) :
    icd9IsAScan sc x = x.any (fun c => sc == c) := by
  induction x with
  | nil => rfl
  | cons c xs ih =>
    simp only [List.mem_cons, not_or] at hx
    have hc : ¬(c = nulChar) := fun h => hx.1 h.symm
    by_cases h : sc = c
    · simp [icd9IsAScan, hc, h]
    · simp [icd9IsAScan, hc, h, ih hx.2]

/-- Scanning for the NUL character always fails: the loop guard `*x`
exits before a NUL in `x` could be compared. -/
theorem icd9IsAScan_nul (x : List Char) : icd9IsAScan nulChar x = false := by
  induction x with
  | nil => rfl
  | cons c xs ih =>
    by_cases hc : c = nulChar
    · simp [icd9IsAScan, hc]
    · have : ¬(nulChar = c) := fun h => hc h.symm
      simp [icd9IsAScan, hc, this, ih]

/-- A character absent from the candidate set is never found by the scan. -/
theorem icd9IsAScan_of_not_mem (sc : Char) (x : List Char) (h : sc ∉ x) :
    icd9IsAScan sc x = false := by
  induction x with
  | nil => rfl
  | cons c xs ih =>
    simp only [List.mem_cons, not_or] at h
    by_cases hc : c = nulChar
    · simp [icd9IsAScan, hc]
    · simp [icd9IsAScan, hc, h.1, ih h.2]

/-! ## Claims -/

/-- Claim C1: for every string `s` and non-empty candidate set `x` (a
well-formed C string, hence NUL-free), `icd9IsASingle` skips leading
spaces and returns true exactly when the first remaining character
exists and belongs to `x`; the empty string yields false. -/
theorem claim_C1 (s x : List Char) (_hne : x ≠ []) (hx : nulChar ∉ x) :
    (icd9IsASingle s x = true ↔ ∃ c rest, skipSpaces s = c :: rest ∧ c ∈ x)
      ∧ icd9IsASingle [] x = false := by
  constructor
  · unfold icd9IsASingle
    cases hs : skipSpaces s with
    | nil =>
      simp only [hs, cstrHead, icd9IsAScan_nul]
      simp
    | cons c rest =>
      simp only [hs, cstrHead, icd9IsAScan_eq_any c x hx, List.any_eq_true, beq_iff_eq]
      constructor
      · rintro ⟨a, ha, he⟩
        exact ⟨c, rest, rfl, by rw [he]; exact ha⟩
      · rintro ⟨c₂, r₂, he, hm⟩
        cases he
        exact ⟨c, hm, rfl⟩
  · show icd9IsAScan (cstrHead (skipSpaces [])) x = false
    simpa [skipSpaces, cstrHead] using icd9IsAScan_nul x

/-- Witness for claim C1 at the concrete string " V1" and candidate set "V". -/
theorem claim_C1_witness :
    ((['V'] : List Char) ≠ []) ∧ nulChar ∉ (['V'] : List Char)
    ∧ ((icd9IsASingle [' ', 'V', '1'] ['V'] = true
        ↔ ∃ c rest, skipSpaces [' ', 'V', '1'] = c :: rest ∧ c ∈ (['V'] : List Char))
      ∧ icd9IsASingle [] ['V'] = false) :=
  ⟨by decide, by decide, claim_C1 [' ', 'V', '1'] ['V'] (by decide) (by decide)⟩

/-- Claim C2: the batch classifier returns one boolean per input string, in
order, each equal to `invert XOR icd9IsASingle(string, x)`, and the empty
input yields the empty output. -/
theorem claim_C2 (sv : List (List Char)) (x : List Char) (invert : Bool) :
    (icd9IsA sv x invert).length = sv.length
    ∧ (∀ (i : ℕ) (h1 : i < (icd9IsA sv x invert).length) (h2 : i < sv.length),
        (icd9IsA sv x invert)[i] = xor invert (icd9IsASingle sv[i] x))
    ∧ icd9IsA [] x invert = [] := by
  refine ⟨by simp [icd9IsA], ?_, rfl⟩
  intro i h1 h2
  simp only [icd9IsA, List.getElem_map]

/-- Witness for claim C2 at a concrete two-element batch and index 0. -/
theorem claim_C2_witness :
    (icd9IsA [['V', '1'], [' ']] ['V'] false).length = 2
    ∧ (icd9IsA [['V', '1'], [' ']] ['V'] false).get ⟨0, by decide⟩
        = xor false (icd9IsASingle ['V', '1'] ['V'])
    ∧ icd9IsA [] ['V'] false = [] :=
  ⟨(claim_C2 [['V', '1'], [' ']] ['V'] false).1,
   (claim_C2 [['V', '1'], [' ']] ['V'] false).2.1 0 (by decide) (by decide),
   (claim_C2 [] ['V'] false).2.2⟩

/-- Claim C3 counterexample: take spaces = "", c = the space character,
rest = "", target set = " ".  Then c is a member of the target set and the
string has the form spaces + c + rest, yet the classifier returns false,
because the leading-space skip consumes c before the membership test. -/
theorem claim_C3_counterexample :
    (∀ a ∈ ([] : List Char), a = ' ')
    ∧ ' ' ∈ ([' '] : List Char)
    ∧ icd9IsASingle (([] : List Char) ++ ' ' :: ([] : List Char)) [' '] = false := by
  decide

/-- Claim C3 (amended): for every string of the form spaces + c + rest where
c is a NON-SPACE character that is a member of the (NUL-free) target set,
the classifier returns true regardless of rest. -/
theorem claim_C3 (spaces rest x : List Char) (c : Char)
    (hsp : ∀ a ∈ spaces, a = ' ') (hx : nulChar ∉ x) (hc : c ≠ ' ') (hm : c ∈ x) :
    icd9IsASingle (spaces ++ c :: rest) x = true := by
  have hskip : ∀ sp : List Char, (∀ a ∈ sp, a = ' ') →
      skipSpaces (sp ++ c :: rest) = c :: rest := by
    intro sp
    induction sp with
    | nil =>
      intro _
      simp [skipSpaces, List.dropWhile_cons, hc]
    | cons a as ih =>
      intro h
      have ha : a = ' ' := h a (List.mem_cons_self a as)
      have htail : ∀ b ∈ as, b = ' ' := fun b hb => h b (List.mem_cons_of_mem a hb)
      simpa [skipSpaces, List.dropWhile_cons, ha] using ih htail
  unfold icd9IsASingle
  rw [hskip spaces hsp]
  simp only [cstrHead, icd9IsAScan_eq_any c x hx, List.any_eq_true, beq_iff_eq]
  exact ⟨c, hm, rfl⟩

/-- Witness for the amended claim C3 at spaces = " ", c = V, rest = "10",
target set = "V". -/
theorem claim_C3_witness :
    (∀ a ∈ ([' '] : List Char), a = ' ') ∧ nulChar ∉ (['V'] : List Char)
    ∧ ('V' ≠ ' ') ∧ 'V' ∈ (['V'] : List Char)
    ∧ icd9IsASingle ([' '] ++ 'V' :: ['1', '0']) ['V'] = true :=
  ⟨by decide, by decide, by decide, by decide,
    claim_C3 [' '] ['1', '0'] ['V'] 'V' (by decide) (by decide) (by decide) (by decide)⟩

/-- Claim C4: the V-or-E classifier equals the disjunction of the V
classifier and the E classifier, on every string. -/
theorem claim_C4 (s : List Char) :
    icd9IsASingleVE s = (icd9IsASingleV s || icd9IsASingleE s) := by
  simp only [icd9IsASingleVE, icd9IsASingleV, icd9IsASingleE]
  cases cstrHead (skipSpaces s) == 'V' <;>
    cases cstrHead (skipSpaces s) == 'E' <;>
      cases cstrHead (skipSpaces s) == 'v' <;>
        cases cstrHead (skipSpaces s) == 'e' <;> rfl

/-- Claim C5: inverting the batch classifier negates each element. -/
theorem claim_C5 (v : List (List Char)) (x : List Char) (i : ℕ)
    (h1 : i < (icd9IsA v x true).length) (h2 : i < (icd9IsA v x false).length) :
    (icd9IsA v x true)[i] = !(icd9IsA v x false)[i] := by
  have hv : i < v.length := by simpa [icd9IsA] using h1
  simp only [icd9IsA, List.getElem_map]
  cases icd9IsASingle v[i] x <;> rfl

/-- Witness for claim C5 at a concrete one-element batch and index 0. -/
theorem claim_C5_witness :
    (icd9IsA [['V']] ['V'] true).get ⟨0, by decide⟩
      = !((icd9IsA [['V']] ['V'] false).get ⟨0, by decide⟩) :=
  claim_C5 [['V']] ['V'] 0 (by decide) (by decide)

/-- Claim C6: each fixed-set classifier equals the generic classifier
applied to its fixed candidate set. -/
theorem claim_C6 (s : List Char) :
    icd9IsASingleV s = icd9IsASingle s ['V', 'v']
    ∧ icd9IsASingleE s = icd9IsASingle s ['E', 'e']
    ∧ icd9IsASingleVE s = icd9IsASingle s ['V', 'v', 'E', 'e'] := by
  have hV := icd9IsAScan_eq_any (cstrHead (skipSpaces s)) ['V', 'v'] (by decide)
  have hE := icd9IsAScan_eq_any (cstrHead (skipSpaces s)) ['E', 'e'] (by decide)
  have hVE := icd9IsAScan_eq_any (cstrHead (skipSpaces s)) ['V', 'v', 'E', 'e'] (by decide)
  refine ⟨?_, ?_, ?_⟩ <;>
    simp only [icd9IsASingleV, icd9IsASingleE, icd9IsASingleVE, icd9IsASingle,
      hV, hE, hVE, List.any_cons, List.any_nil] <;>
    cases cstrHead (skipSpaces s) == 'V' <;>
      cases cstrHead (skipSpaces s) == 'E' <;>
        cases cstrHead (skipSpaces s) == 'v' <;>
          cases cstrHead (skipSpaces s) == 'e' <;> rfl

/-- Claim C7: the batch classifier on ["V10", " E950", "427"] with set "V"
and invert = false returns [true, false, false]. -/
theorem claim_C7 :
    icd9IsA [['V', '1', '0'], [' ', 'E', '9', '5', '0'], ['4', '2', '7']] ['V'] false
      = [true, false, false] := by
  decide

/-- Claim C8: membership is by exact character equality with no case
folding: on "v10" the generic classifier with set "V" returns false while
the fixed V classifier (which hard-codes both cases) returns true. -/
theorem claim_C8 :
    icd9IsASingle ['v', '1', '0'] ['V'] = false
    ∧ icd9IsASingleV ['v', '1', '0'] = true := by
  decide

/-- Claim C9: with an empty candidate set the generic classifier returns
false on every string, and the batch classifier with an empty set and
invert = false returns all-false. -/
theorem claim_C9 :
    (∀ s : List Char, icd9IsASingle s [] = false)
    ∧ (∀ sv : List (List Char), icd9IsA sv [] false = List.replicate sv.length false) := by
  have h1 : ∀ s : List Char, icd9IsASingle s [] = false := fun s => rfl
  refine ⟨h1, fun sv => ?_⟩
  induction sv with
  | nil => rfl
  | cons a as ih =>
    show (false != icd9IsASingle a []) :: icd9IsA as [] false
        = false :: List.replicate as.length false
    rw [h1 a, ih]
    exact rfl

/-- Claim C10: only the ASCII space character is skipped: a string whose
first character is neither a space nor a member of the set classifies as
false, whatever follows; in particular a leading tab is not skipped. -/
theorem claim_C10 :
    (∀ (c : Char) (s x : List Char), c ≠ ' ' → c ∉ x →
        icd9IsASingle (c :: s) x = false)
    ∧ icd9IsASingle ('\t' :: ['V', '1', '0']) ['V'] = false := by
  constructor
  · intro c s x hc hm
    unfold icd9IsASingle
    have hskip : skipSpaces (c :: s) = c :: s := by
      simp [skipSpaces, List.dropWhile_cons, hc]
    rw [hskip]
    simpa [cstrHead] using icd9IsAScan_of_not_mem c x hm
  · decide

/-- Witness for claim C10 at c = tab. -/
theorem claim_C10_witness :
    ('\t' ≠ ' ') ∧ ('\t' ∉ (['V'] : List Char))
    ∧ icd9IsASingle ('\t' :: ['1']) ['V'] = false :=
  ⟨by decide, by decide, claim_C10.1 '\t' ['1'] ['V'] (by decide) (by decide)⟩
